import Mathlib

/-
  Verification development for the transaction-construction core of the
  Nautilus wallet fork.

  The embedding follows the TypeScript source:
  - src/src/chains/ergo/transaction/txBuilder.ts
      (createRBFCancellationTransaction, getContext, createP2PTransaction,
       setSelectionAndChangeStrategy, setFee, OutputInterpreter,
       decodeUtf8, decodeDecimals)
  - src/unnamed/part_001 (AddressesDbService)

  Protocol amounts are modelled as exact rationals (the source uses
  arbitrary-precision BigNumber arithmetic, which is exact on the
  operations appearing here), raw on-chain integer amounts as Int.
  Fallible code returns Except or Option.  Parts of the repository that
  are not under src/ (the Fleet SDK transaction builder, the babel-fee
  helpers, the register serializer, the constants file) are modelled from
  the spec; each such definition carries a doc comment saying so.
-/

namespace Nautilus

/-- Modelled from the spec: the native asset identifier (the constants file
src/constants/ergo is not under src/; the concrete string is irrelevant, it
only needs to be a distinguished value). -/
def ERG_TOKEN_ID : String := "native"

/-- Modelled from the spec: the native currency has nine decimal places
(constants file not under src/). -/
def ERG_DECIMALS : Int := 9

/-- Modelled from the spec: the protocol minimum native value a box may
carry, in smallest units (constants file not under src/). -/
def MIN_BOX_VALUE : ℚ := 1000000

/-- Modelled from the spec: one minimum-fee increment, in smallest units
(constants file not under src/); the claims only use its positivity. -/
def SAFE_MIN_FEE_VALUE : ℚ := 1100000

/-- Translated from txBuilder.ts: the change-output token limit used for
non-hardware wallets. -/
def SAFE_MAX_CHANGE_TOKEN_LIMIT : Nat := 100

/-- Modelled from the spec: convert a raw smallest-unit amount to its
decimal display value, dividing by ten to the scale (the bigNumber helper
module is not under src/). -/
def decimalize (x : ℚ) (d : Int) : ℚ := x / 10 ^ d

/-- Modelled from the spec: convert a decimal display value to smallest
units, multiplying by ten to the scale (the bigNumber helper module is not
under src/). -/
def undecimalize (x : ℚ) (d : Int) : ℚ := x * 10 ^ d

/-- Translated from src/types/internal.ts: the signing-backend kinds. -/
inductive WalletType where
  | Standard
  | ReadOnly
  | Ledger
deriving DecidableEq, Repr

/-- Modelled from the spec: the pluggable input-selection strategies of the
Fleet SDK builder (the SDK is not under src/): the builder's initial
insertion-order strategy, the cherry-pick strategy, and ordering by
creation height ascending. -/
inductive SelectionStrategy where
  | insertionOrder
  | cherryPick
  | orderByCreationHeight
deriving DecidableEq, Repr

/-- An unspent output as the builder consumes it: identifier, native value
in smallest units, creation height. -/
structure Box where
  boxId : String
  value : ℚ
  creationHeight : Nat
deriving DecidableEq, Repr

/-- A requested output: native value, target address, asset list. -/
structure OutputCandidate where
  value : ℚ
  address : String
  assets : List (String × ℚ) := []
deriving DecidableEq, Repr

/-- Modelled from the spec: a babel (swap) liquidity box — an unspent
output of the swap contract, exposing its token pair, native reserve,
counter-asset balance and exchange rate (the babelFees module is not under
src/). -/
structure BabelBox where
  boxId : String
  script : String
  tokenId : String
  value : ℚ
  tokenBalance : ℚ
  rate : ℚ
deriving DecidableEq, Repr

/-- Translated from src/types/internal.ts: the fee configuration — fee
asset id, display amount, optional minimum acceptable rate, optional asset
decimal scale, and the liquidity box written back by fee resolution. -/
structure FeeSettings where
  tokenId : String
  value : ℚ
  nanoErgsPerToken : Option ℚ := none
  assetDecimals : Option Int := none
  box : Option BabelBox := none
deriving DecidableEq, Repr

/-- Modelled from the spec: the state accumulated by the Fleet SDK
TransactionBuilder (the SDK is not under src/): reference height, inputs
pinned with ensureInclusion, further candidate inputs left to the
selector, requested outputs, resolved fee, change address, and the
profile-dependent selection and change configuration. -/
structure BuilderState where
  creationHeight : Nat
  ensuredInputs : List Box := []
  otherInputs : List Box := []
  outputs : List OutputCandidate := []
  feeAmount : ℚ := 0
  changeAddress : String := ""
  maxTokensPerChangeBox : Nat := SAFE_MAX_CHANGE_TOKEN_LIMIT
  isolateErgOnChange : Bool := false
  strategy : SelectionStrategy := SelectionStrategy.insertionOrder
deriving DecidableEq, Repr

/-- Sum of the native values of the outputs already requested on the
builder (the source reads builder.outputs.sum().nanoErgs). -/
def outputsSumNanoErgs (st : BuilderState) : ℚ :=
  st.outputs.foldl (fun acc o => acc + o.value) 0

/-- Translated from txBuilder.ts (setSelectionAndChangeStrategy): a Ledger
profile gets erg isolation, a one-token change limit and the cherry-pick
strategy; every other profile gets the 100-token change limit and input
ordering by creation height. -/
def setSelectionAndChangeStrategy (builder : BuilderState) (walletType : WalletType) :
    BuilderState :=
  if walletType = WalletType.Ledger then
    { builder with
      isolateErgOnChange := true
      maxTokensPerChangeBox := 1
      strategy := SelectionStrategy.cherryPick }
  else
    { builder with
      maxTokensPerChangeBox := SAFE_MAX_CHANGE_TOKEN_LIMIT
      strategy := SelectionStrategy.orderByCreationHeight }

/-- Modelled from the spec: the rate exposed by a babel box, in native
smallest units per one fee-asset unit (babelFees module not under src/). -/
def getNanoErgsPerTokenRate (box : BabelBox) : ℚ := box.rate

/-- Modelled from the spec: fetch the candidate swap boxes offering the
given asset, filtered to a caller-specified minimum acceptable rate
(babelFees module not under src/); the ambient unspent babel-box set is
passed explicitly. -/
def fetchBabelBoxes (allBoxes : List BabelBox) (tokenId : String)
    (minRate : Option ℚ) : List BabelBox :=
  allBoxes.filter fun b =>
    b.tokenId == tokenId && (match minRate with | some r => decide (r ≤ b.rate) | none => true)

/-- Modelled from the spec: a candidate box qualifies when it has enough
native reserve to cover the requested fee-asset amount at its rate. -/
def hasEnoughReserve (b : BabelBox) (tokenUnits : ℚ) : Prop :=
  tokenUnits * b.rate ≤ b.value

instance : ∀ (b : BabelBox) (t : ℚ), Decidable (hasEnoughReserve b t) :=
  fun b t => inferInstanceAs (Decidable (t * b.rate ≤ b.value))

/-- Keep whichever of the accumulated candidate and the next box has the
better rate. -/
def pickBetter (best : Option BabelBox) (b : BabelBox) : Option BabelBox :=
  match best with
  | none => some b
  | some c => if c.rate < b.rate then some b else some c

/-- Modelled from the spec: select the swap box with the best available
rate among candidates that have enough reserve for the requested amount
(babelFees module not under src/). -/
def selectBestBabelBox (boxes : List BabelBox) (tokenUnits : ℚ) : Option BabelBox :=
  (boxes.filter fun b => hasEnoughReserve b tokenUnits).foldl pickBetter none

/-- The fee-asset amount in smallest units, as setFee computes it from the
display amount and the fee asset's decimal scale. -/
def babelTokenUnits (fee : FeeSettings) : ℚ :=
  undecimalize fee.value ((fee.assetDecimals).getD 0)

/-- Modelled from the spec: the babel swap plugin extends the transaction
with the swap box as one extra input and one extra output holding the
updated swap box — its native reserve decreased by the traded native
amount and its counter-asset balance increased by the paid token amount
(the plugin package is not under src/). -/
def BabelSwapPlugin (st : BuilderState) (box : BabelBox) (tokenId : String)
    (tokenUnits : ℚ) : BuilderState :=
  { st with
    ensuredInputs := st.ensuredInputs ++
      [{ boxId := box.boxId, value := box.value, creationHeight := 0 }]
    outputs := st.outputs ++
      [{ value := box.value - tokenUnits * box.rate
         address := box.script
         assets := [(tokenId, box.tokenBalance + tokenUnits)] }] }

/-- Translated from txBuilder.ts (setFee).  For a native-asset fee the
display amount is converted to smallest units and paid.  For a non-native
fee asset: the candidate babel boxes are fetched and the best one
selected; if none qualifies the build fails with the insufficient-
liquidity error; otherwise the box is recorded into FeeSettings, the
native fee recomputed from the box rate, and the swap plugin applied.  The
source's conditional that reassigns its local copy of the outputs total to
MIN_BOX_VALUE has no effect on the builder's outputs; only its fee
reduction by the (reassigned) local is observable, so the fee drops by
exactly MIN_BOX_VALUE when the condition holds. -/
def setFee (builder : BuilderState) (fee : FeeSettings)
    (babelUniverse : List BabelBox) : Except String (BuilderState × FeeSettings) :=
  let isBabelFee := fee.tokenId ≠ ERG_TOKEN_ID
  let feeNanoErgs := undecimalize fee.value ERG_DECIMALS
  let sendingNanoErgs := outputsSumNanoErgs builder
  if isBabelFee then
    let tokenUnits := babelTokenUnits fee
    match selectBestBabelBox
        (fetchBabelBoxes babelUniverse fee.tokenId fee.nanoErgsPerToken) tokenUnits with
    | none =>
        Except.error
          "There is not enough liquidity in the Babel Boxes for the selected fee asset in the selected price range."
    | some selectedBox =>
        let fee2 := { fee with box := some selectedBox }
        let feeNanoErgs2 := tokenUnits * getNanoErgsPerTokenRate selectedBox
        let feeNanoErgs3 :=
          if 0 < sendingNanoErgs ∧ sendingNanoErgs ≤ MIN_BOX_VALUE ∧
              sendingNanoErgs ≤ feeNanoErgs2 - SAFE_MIN_FEE_VALUE then
            feeNanoErgs2 - MIN_BOX_VALUE
          else feeNanoErgs2
        let builder2 := BabelSwapPlugin builder selectedBox fee2.tokenId tokenUnits
        Except.ok ({ builder2 with feeAmount := feeNanoErgs3 }, fee2)
  else
    Except.ok ({ builder with feeAmount := feeNanoErgs }, fee)

/-- Translated from txBuilder.ts (getContext): the box fetch and the
height fetch are joined; a failure of either is the failure of the whole
context fetch, an empty input list or a zero height raise the connectivity
errors.  The two collaborator calls are passed as their results. -/
def getContext (fetchRes : Except String (List Box)) (heightRes : Except String Nat) :
    Except String (List Box × Nat) :=
  match fetchRes with
  | Except.error e => Except.error e
  | Except.ok inputs =>
    match heightRes with
    | Except.error e => Except.error e
    | Except.ok currentHeight =>
      if inputs.isEmpty then
        Except.error "Unable to fetch inputs, please check your connection."
      else if currentHeight = 0 then
        Except.error "Unable to fetch current height, please check your connection."
      else
        Except.ok (inputs, currentHeight)

/-- Translated from src/types/transactions (shape used by txBuilder.ts):
the unconfirmed transaction being cancelled — its wallet-owned inputs and
its decimal display fee. -/
structure UnconfirmedTransactionSummary where
  ownInputs : List Box
  fee : ℚ
deriving DecidableEq, Repr

/-- The ambient wallet state read by txBuilder.ts through the wallet
store: the signing-backend kind and the derived change-address script
(safeGetChangeAddress; key derivation is not under src/ and the script is
taken as given). -/
structure WalletContext where
  walletType : WalletType
  changeAddressScript : String
deriving DecidableEq, Repr

/-- Modelled from the spec: the selector accumulates candidate inputs until
the required value is covered (the Fleet SDK selector is not under src/). -/
def selectCover (required : ℚ) : ℚ → List Box → List Box
  | _, [] => []
  | acc, b :: rest =>
      if required ≤ acc then [] else b :: selectCover required (acc + b.value) rest

/-- Order a box list by creation height ascending, as the default strategy
prescribes; the other strategies keep insertion order in this model. -/
def orderInputs (strategy : SelectionStrategy) (l : List Box) : List Box :=
  match strategy with
  | SelectionStrategy.orderByCreationHeight =>
      l.insertionSort fun a b => a.creationHeight ≤ b.creationHeight
  | _ => l

/-- The finished unsigned draft: input list, output list, fee, height. -/
structure TransactionDraft where
  inputs : List Box
  outputs : List OutputCandidate
  feeAmount : ℚ
  creationHeight : Nat
deriving DecidableEq, Repr

/-- Modelled from the spec: building the draft pins every ensured input
and lets the selector add further candidate inputs until the outputs plus
fee are covered (the Fleet SDK build step is not under src/; change-output
assembly is outside the modelled claims). -/
def build (st : BuilderState) : TransactionDraft :=
  let ensuredSum := st.ensuredInputs.foldl (fun acc b => acc + b.value) 0
  let required := outputsSumNanoErgs st + st.feeAmount
  { inputs := st.ensuredInputs ++
      selectCover required ensuredSum (orderInputs st.strategy st.otherInputs)
    outputs := st.outputs
    feeAmount := st.feeAmount
    creationHeight := st.creationHeight }

/-- Translated from txBuilder.ts (createRBFCancellationTransaction): fetch
the context, pin the unconfirmed transaction's own inputs with
ensureInclusion, offer the remaining wallet inputs to the selector, pay
the original fee plus one minimum-fee increment, send change to the
wallet's change address, apply the profile strategy, and build. -/
def createRBFCancellationTransaction (ctx : WalletContext)
    (fetchRes : Except String (List Box)) (heightRes : Except String Nat)
    (unconfirmedTx : UnconfirmedTransactionSummary) :
    Except String TransactionDraft :=
  match getContext fetchRes heightRes with
  | Except.error e => Except.error e
  | Except.ok (inputs, currentHeight) =>
    let ownBoxIds := unconfirmedTx.ownInputs.map (fun input => input.boxId)
    let unsigned : BuilderState :=
      { creationHeight := currentHeight
        ensuredInputs := unconfirmedTx.ownInputs
        otherInputs := inputs.filter fun input => !(ownBoxIds.contains input.boxId)
        feeAmount := undecimalize unconfirmedTx.fee ERG_DECIMALS + SAFE_MIN_FEE_VALUE
        changeAddress := ctx.changeAddressScript }
    Except.ok (build (setSelectionAndChangeStrategy unsigned ctx.walletType))

/-- Modelled from the spec: the decoded shape of a typed register payload
as returned by the Fleet serializer (not under src/): a byte collection
(the SColl of SByte case), a numeric value (the integer cases, whose data
field is a JavaScript number or bigint), a well-formed payload of any
other type, or a payload the serializer fails to parse (the serializer
catches the failure and yields undefined, exactly as an absent register
slot does). -/
inductive RegValue where
  | collBytes (bytes : List Nat)
  | numeric (value : Int)
  | nonNumeric
  | malformed
deriving DecidableEq, Repr

/-- Modelled from the spec: UTF-8 rendering of a byte list (the crypto
package is not under src/); total, one character per byte, which agrees
with the real decoder on the ASCII payloads the claims exercise. -/
def utf8encode (bytes : List Nat) : String :=
  String.mk (bytes.map fun b => Char.ofNat b)

/-- Modelled from JavaScript semantics: Number.parseInt with radix ten —
skip leading spaces, take an optional sign and the leading digit run;
none models the NaN result when no digit is found. -/
def parseIntJS (s : String) : Option Int :=
  let chars := s.data.dropWhile fun c => c = ' '
  let signAndRest : Int × List Char :=
    match chars with
    | '-' :: cs => (-1, cs)
    | '+' :: cs => (1, cs)
    | cs => (1, cs)
  let digits := signAndRest.2.takeWhile Char.isDigit
  if digits.isEmpty then none
  else some (signAndRest.1 *
    (digits.foldl (fun acc c => acc * 10 + (c.toNat - 48)) (0 : Nat) : Int))

/-- Translated from txBuilder.ts (decodeUtf8): a register payload decodes
to a string exactly when it is a byte collection; an absent slot, a parse
failure or any other type yields none (the source returns undefined). -/
def decodeUtf8 : Option RegValue → Option String
  | some (RegValue.collBytes bs) => some (utf8encode bs)
  | _ => none

/-- Translated from txBuilder.ts (decodeDecimals): a byte-collection
payload is decoded as a UTF-8 integer string, a numeric payload is taken
as the scale itself; an absent slot, a parse failure, a non-numeric
payload or a digit-free string all yield none (the source's undefined or
NaN, both falsy where the scale is used). -/
def decodeDecimals : Option RegValue → Option Int
  | some (RegValue.collBytes bs) => parseIntJS (utf8encode bs)
  | some (RegValue.numeric n) => some n
  | _ => none

/-- A token id together with its raw integer amount, as carried by boxes. -/
structure TokenAmount where
  tokenId : String
  amount : Int
deriving DecidableEq, Repr

/-- Translated from src/types/connector (shape used by the interpreter):
an output box candidate — native value, guarding script, assets, register
map. -/
structure ErgoBoxCandidate where
  value : Int
  ergoTree : String
  assets : List TokenAmount
  additionalRegisters : List (String × RegValue) := []
deriving DecidableEq, Repr

/-- An unsigned transaction input as the interpreter reads it: box id,
guarding script, native value and assets. -/
structure EIP12UnsignedInput where
  boxId : String
  ergoTree : String
  value : Int
  assets : List TokenAmount
deriving DecidableEq, Repr

/-- Translated from src/types/internal.ts: per-asset display metadata. -/
structure BasicAssetMetadata where
  name : Option String := none
  decimals : Option Int := none
deriving DecidableEq, Repr

/-- The metadata map, as an association list keyed by token id. -/
def AssetsMetadataMap := List (String × BasicAssetMetadata)

/-- Translated from txBuilder.ts (OutputAsset): one displayed asset entry. -/
structure OutputAsset where
  tokenId : String
  name : Option String := none
  amount : ℚ
  decimals : Option Int := none
  description : Option String := none
  minting : Option Bool := none
deriving DecidableEq, Repr

/-- Metadata lookup, mirroring AssetsMetadataMap.get. -/
def lookupMeta (metadata : AssetsMetadataMap) (tokenId : String) :
    Option BasicAssetMetadata :=
  (List.lookup tokenId metadata : Option BasicAssetMetadata)

/-- JavaScript truthiness of the decoded decimal scale, as used on both
scaling sites of the source: a present non-zero scale decimalizes the raw
amount, a zero scale (falsy 0) or an absent scale (undefined or NaN)
leaves the raw amount. -/
def jsTruthyScale (decimals : Option Int) (amount : Int) : ℚ :=
  match decimals with
  | some d => if d = 0 then (amount : ℚ) else decimalize (amount : ℚ) d
  | none => (amount : ℚ)

/-- Modelled from the spec: the swap-contract template check of the babel
plugin package (not under src/), abstracted to matching a distinguished
script marker; the theorems only condition on its Boolean outcome. -/
def isValidBabelContract (ergoTree : String) : Bool :=
  ergoTree.data.take 10 == "babelswap:".data

/-- Translated from txBuilder.ts (OutputInterpreter.getMintingToken): the
minting entry of a box, when the box carries a token whose id equals the
first input's box id — raw and unflagged when the register map is empty,
otherwise named, described and scaled from register slots 4, 5 and 6 with
total fallbacks, and flagged as minting. -/
def getMintingToken (inputs : List EIP12UnsignedInput) (box : ErgoBoxCandidate) :
    Option OutputAsset :=
  match inputs.head? with
  | none => none
  | some firstInput =>
    match box.assets.find? (fun b => b.tokenId == firstInput.boxId) with
    | none => none
    | some token =>
      if box.additionalRegisters.isEmpty then
        some { tokenId := token.tokenId, amount := (token.amount : ℚ) }
      else
        let decimals := decodeDecimals (List.lookup "R6" box.additionalRegisters)
        some { tokenId := token.tokenId
               name := some ((decodeUtf8 (List.lookup "R4" box.additionalRegisters)).getD "")
               decimals := decimals
               amount := jsTruthyScale decimals token.amount
               description :=
                 some ((decodeUtf8 (List.lookup "R5" box.additionalRegisters)).getD "")
               minting := some true }

/-- Translated from txBuilder.ts (OutputInterpreter.buildSendingAssetsList):
the native entry followed by the box's tokens, metadata-scaled when a
truthy scale is known, with the minting entry substituted in place when
the minting marker matches. -/
def buildSendingAssetsList (metadata : AssetsMetadataMap)
    (inputs : List EIP12UnsignedInput) (box : ErgoBoxCandidate) : List OutputAsset :=
  let ergAsset : OutputAsset :=
    { tokenId := ERG_TOKEN_ID
      name := some "ERG"
      amount := decimalize (box.value : ℚ) ERG_DECIMALS }
  if box.assets.isEmpty then [ergAsset]
  else
    let tokens := box.assets.map fun t =>
      ({ tokenId := t.tokenId
         name := (lookupMeta metadata t.tokenId).bind (fun m => m.name)
         amount := jsTruthyScale ((lookupMeta metadata t.tokenId).bind (fun m => m.decimals))
           t.amount } : OutputAsset)
    let tokens2 :=
      match getMintingToken inputs box with
      | some minting =>
        match tokens.findIdx? (fun t => t.tokenId == minting.tokenId) with
        | some index => tokens.set index minting
        | none => tokens
      | none => tokens
    ergAsset :: tokens2

/-- Translated from txBuilder.ts (OutputInterpreter.buildBabelSwapAssetsList):
for a swap settlement, every box asset is reported as the output-minus-
input difference against the first input sharing the box's script, and the
native entry as the input-minus-output difference; with no such input the
ordinary sending list is built. -/
def buildBabelSwapAssetsList (metadata : AssetsMetadataMap)
    (inputs : List EIP12UnsignedInput) (box : ErgoBoxCandidate) : List OutputAsset :=
  match inputs.find? (fun input => input.ergoTree == box.ergoTree) with
  | none => buildSendingAssetsList metadata inputs box
  | some input =>
    let assets := box.assets.map fun token =>
      let inputValue :=
        (((input.assets.find? fun a => a.tokenId == token.tokenId).map
          fun a => a.amount).getD 0)
      ({ tokenId := token.tokenId
         name := (lookupMeta metadata token.tokenId).bind (fun m => m.name)
         amount := decimalize ((token.amount - inputValue : Int) : ℚ)
           (((lookupMeta metadata token.tokenId).bind (fun m => m.decimals)).getD 0) } :
        OutputAsset)
    assets ++
      [{ tokenId := ERG_TOKEN_ID
         name := some "ERG"
         amount := decimalize ((input.value - box.value : Int) : ℚ) ERG_DECIMALS }]

/-- Translated from txBuilder.ts (OutputInterpreter.isBabelBoxSwap): the
box script matches the swap-contract template and some input shares that
exact script. -/
def isBabelBoxSwap (inputs : List EIP12UnsignedInput) (box : ErgoBoxCandidate) : Bool :=
  isValidBabelContract box.ergoTree &&
    (inputs.find? fun input => input.ergoTree == box.ergoTree).isSome

/-- Translated from txBuilder.ts (OutputInterpreter constructor): the
displayed asset list is the swap list for a babel settlement and the
sending list otherwise. -/
def interpretAssets (metadata : AssetsMetadataMap)
    (inputs : List EIP12UnsignedInput) (box : ErgoBoxCandidate) : List OutputAsset :=
  if isBabelBoxSwap inputs box then buildBabelSwapAssetsList metadata inputs box
  else buildSendingAssetsList metadata inputs box

/-- Translated from txBuilder.ts (OutputInterpreter.isMinting): some entry
carries a truthy minting flag. -/
def isMinting (assets : List OutputAsset) : Bool :=
  (assets.find? fun a => a.minting.getD false).isSome

/-- Translated from src/types/internal.ts (AddressState). -/
inductive AddressState where
  | Used
  | Unused
deriving DecidableEq, Repr

/-- Translated from src/types/database (shape used by AddressesDbService):
a stored address row — unique script, derivation index, owning wallet,
usage state. -/
structure DbAddress where
  script : String
  index : Nat
  walletId : Nat
  state : AddressState
deriving DecidableEq, Repr

/-- Translated from src/types/database (shape used by AddressesDbService):
a stored wallet row with its change-address settings. -/
structure DbWallet where
  id : Nat
  avoidAddressReuse : Bool
  defaultChangeIndex : Nat
deriving DecidableEq, Repr

/-- Ordering of address rows by derivation index ascending, as produced by
the database's orderBy on the index field. -/
def sortByIndex (l : List DbAddress) : List DbAddress :=
  l.insertionSort fun a b => a.index ≤ b.index

instance : IsTotal DbAddress fun a b => a.index ≤ b.index :=
  ⟨fun a b => Nat.le_total a.index b.index⟩

instance : IsTrans DbAddress fun a b => a.index ≤ b.index :=
  ⟨fun _ _ _ h1 h2 => Nat.le_trans h1 h2⟩

/-- Translated from part_001 (AddressesDbService.getByWalletIdAndScripts):
collect the stored addresses whose script is among the requested ones and
whose wallet matches; in strict mode a result count differing from the
request count raises the ownership error. -/
def getByWalletIdAndScripts (db : List DbAddress) (walletId : Nat)
    (scripts : List String) (strict : Bool) : Except String (List DbAddress) :=
  let result := db.filter fun a => a.script ∈ scripts ∧ a.walletId = walletId
  if strict ∧ result.length ≠ scripts.length then
    Except.error "One or more selected addresses are not associated with the connected wallet."
  else
    Except.ok result

/-- Translated from part_001 (AddressesDbService, private change-address
step): with address-reuse avoidance, the first unused address of the
wallet in index order; otherwise the wallet's address at the configured
default change index. -/
def getChangeAddressStep (db : List DbAddress) (wallet : DbWallet) : Option DbAddress :=
  if wallet.avoidAddressReuse then
    (sortByIndex db).find? fun a =>
      a.walletId == wallet.id && a.state == AddressState.Unused
  else
    db.find? fun a => a.walletId == wallet.id && a.index == wallet.defaultChangeIndex

/-- Translated from part_001 (AddressesDbService.getChangeAddress): none
when the wallet does not exist; otherwise the private step's address, and
when that step resolves nothing, the wallet's first address in index
order. -/
def getChangeAddress (wallets : List DbWallet) (db : List DbAddress)
    (walletId : Nat) : Option DbAddress :=
  match wallets.find? fun w => w.id == walletId with
  | none => none
  | some wallet =>
    match getChangeAddressStep db wallet with
    | some address => some address
    | none => (sortByIndex db).find? fun a => a.walletId == walletId

/-- Concrete wallet context used to exercise the cancellation builder. -/
def ctxW : WalletContext :=
  { walletType := WalletType.Standard, changeAddressScript := "chg" }

/-- Concrete unconfirmed transaction used to exercise the cancellation
builder: one own input of 3000000 smallest units, display fee 0.001. -/
def txW : UnconfirmedTransactionSummary :=
  { ownInputs := [{ boxId := "o1", value := 3000000, creationHeight := 5 }], fee := 1 / 1000 }

/-- Concrete unspent-output fetch result used to exercise the builder. -/
def fetchW : List Box :=
  [{ boxId := "b1", value := 50000000, creationHeight := 1 },
   { boxId := "o1", value := 3000000, creationHeight := 5 }]

/-- The draft the cancellation builder produces on the concrete inputs. -/
def draftW : TransactionDraft :=
  { inputs := [{ boxId := "o1", value := 3000000, creationHeight := 5 }]
    outputs := []
    feeAmount := 2100000
    creationHeight := 10 }

/-- Concrete builder holding one payment output of 500000 smallest units,
below the protocol minimum box value. -/
def builderB : BuilderState :=
  { creationHeight := 100, outputs := [{ value := 500000, address := "rcpt" }] }

/-- Concrete non-native fee settings: ten fee-asset units, no decimals. -/
def feeB : FeeSettings := { tokenId := "tok", value := 10 }

/-- Concrete babel box with ample reserve at a rate of 5000000 native
units per fee-asset unit, so the resolved native fee is 50000000. -/
def babelB : BabelBox :=
  { boxId := "bb", script := "babelswap:s", tokenId := "tok", value := 100000000000,
    tokenBalance := 7, rate := 5000000 }

/-- Concrete output box for the swap-settlement worked example: 900 of
asset B and 2005000000 native units, guarded by the swap script. -/
def boxC4 : ErgoBoxCandidate :=
  { value := 2005000000, ergoTree := "babelswap:t1", assets := [⟨"B", 900⟩] }

/-- Concrete matching input for the worked example: the same swap script
holding 1000 of asset B and 2000000000 native units. -/
def inputC4 : EIP12UnsignedInput :=
  { boxId := "i1", ergoTree := "babelswap:t1", value := 2000000000,
    assets := [⟨"B", 1000⟩] }

/-- Concrete wallet table for the change-address claims. -/
def walletsW : List DbWallet :=
  [{ id := 1, avoidAddressReuse := true, defaultChangeIndex := 0 }]

/-- Concrete address table for the change-address claims: index 0 used,
indices 1 and 2 unused, one foreign address. -/
def addressesW : List DbAddress :=
  [{ script := "s2", index := 2, walletId := 1, state := AddressState.Unused },
   { script := "s0", index := 0, walletId := 1, state := AddressState.Used },
   { script := "s1", index := 1, walletId := 1, state := AddressState.Unused },
   { script := "t9", index := 9, walletId := 2, state := AddressState.Unused }]

/-- Concrete address table for the strict-lookup claim. -/
def addressesC9 : List DbAddress :=
  [{ script := "s0", index := 0, walletId := 1, state := AddressState.Used },
   { script := "s1", index := 1, walletId := 1, state := AddressState.Unused },
   { script := "t9", index := 9, walletId := 2, state := AddressState.Unused }]

/-- Concrete minting box for the interpreter claims: carries a token whose
id equals the first input's box id and an empty register map. -/
def boxC10 : ErgoBoxCandidate :=
  { value := 4000000, ergoTree := "p2pk:x", assets := [⟨"i1", 2500⟩] }

/-- Concrete first input for the interpreter claims. -/
def inputC10 : EIP12UnsignedInput :=
  { boxId := "i1", ergoTree := "p2pk:y", value := 7000000, assets := [] }

/-- Concrete minting box with registers for the register-tolerance claim:
slot 4 malformed, slot 5 absent, slot 6 a UTF-8 digit string. -/
def boxC8 : ErgoBoxCandidate :=
  { value := 4000000, ergoTree := "p2pk:x", assets := [⟨"i1", 2500⟩],
    additionalRegisters := [("R4", RegValue.malformed), ("R6", RegValue.collBytes [50])] }

/-
  Theorems.
-/

theorem setSelectionAndChangeStrategy_ensuredInputs (b : BuilderState) (wt : WalletType) :
    (setSelectionAndChangeStrategy b wt).ensuredInputs = b.ensuredInputs := by
  unfold setSelectionAndChangeStrategy; split <;> rfl

theorem setSelectionAndChangeStrategy_feeAmount (b : BuilderState) (wt : WalletType) :
    (setSelectionAndChangeStrategy b wt).feeAmount = b.feeAmount := by
  unfold setSelectionAndChangeStrategy; split <;> rfl

theorem setSelectionAndChangeStrategy_outputs (b : BuilderState) (wt : WalletType) :
    (setSelectionAndChangeStrategy b wt).outputs = b.outputs := by
  unfold setSelectionAndChangeStrategy; split <;> rfl

theorem setSelectionAndChangeStrategy_creationHeight (b : BuilderState) (wt : WalletType) :
    (setSelectionAndChangeStrategy b wt).creationHeight = b.creationHeight := by
  unfold setSelectionAndChangeStrategy; split <;> rfl

/-- C5: the context fetch joins the unspent-output fetch and the height
fetch; the build context is produced exactly when both collaborator calls
succeed with a non-empty input list and a non-zero height, it then
consists of exactly the fetched values, and a failure of either call —
including partial success of the other — is the failure of the whole
context fetch, with no retry (the function is a single pass over the
joined results). -/
theorem getContext_joint_failure (fetchRes : Except String (List Box))
    (heightRes : Except String Nat) :
    ((∃ ctx, getContext fetchRes heightRes = Except.ok ctx) ↔
       (∃ ins h, fetchRes = Except.ok ins ∧ heightRes = Except.ok h ∧
         ins ≠ [] ∧ h ≠ 0)) ∧
    (∀ ins h, fetchRes = Except.ok ins → heightRes = Except.ok h →
       ins ≠ [] → h ≠ 0 → getContext fetchRes heightRes = Except.ok (ins, h)) ∧
    (∀ e, fetchRes = Except.error e →
       getContext fetchRes heightRes = Except.error e) ∧
    (∀ ins e, fetchRes = Except.ok ins → heightRes = Except.error e →
       getContext fetchRes heightRes = Except.error e) := by
  cases fetchRes with
  | error e => simp [getContext]
  | ok ins =>
    cases heightRes with
    | error e => simp [getContext]
    | ok h =>
      by_cases hne : ins = []
      · subst hne; simp [getContext]
      · by_cases hz : h = 0
        · subst hz; simp [getContext, List.isEmpty_iff, hne]
        · simp [getContext, List.isEmpty_iff, hne, hz]

/-- C5 witness: at a one-box fetch and height five, the context is the
fetched pair. -/
theorem getContext_joint_failure_witness :
    getContext (Except.ok [{ boxId := "b", value := 1, creationHeight := 0 }])
      (Except.ok 5) =
      Except.ok ([{ boxId := "b", value := 1, creationHeight := 0 }], 5) :=
  (getContext_joint_failure _ _).2.1 _ 5 rfl rfl (by simp) (by simp)

/-- C7: the selection and change configuration is a function of the
signing-backend kind alone — Ledger gets the cherry-pick strategy, a
one-token change limit and erg isolation; every other kind gets ordering
by creation height and the 100-token limit; the resulting strategy and
limit do not depend on the rest of the builder state. -/
theorem selection_strategy_by_wallet_type (builder : BuilderState) (wt : WalletType) :
    (wt = WalletType.Ledger →
       (setSelectionAndChangeStrategy builder wt).strategy = SelectionStrategy.cherryPick ∧
       (setSelectionAndChangeStrategy builder wt).maxTokensPerChangeBox = 1 ∧
       (setSelectionAndChangeStrategy builder wt).isolateErgOnChange = true) ∧
    (wt ≠ WalletType.Ledger →
       (setSelectionAndChangeStrategy builder wt).strategy =
         SelectionStrategy.orderByCreationHeight ∧
       (setSelectionAndChangeStrategy builder wt).maxTokensPerChangeBox =
         SAFE_MAX_CHANGE_TOKEN_LIMIT) ∧
    (∀ b2 : BuilderState,
       (setSelectionAndChangeStrategy builder wt).strategy =
         (setSelectionAndChangeStrategy b2 wt).strategy ∧
       (setSelectionAndChangeStrategy builder wt).maxTokensPerChangeBox =
         (setSelectionAndChangeStrategy b2 wt).maxTokensPerChangeBox) := by
  cases wt <;> simp [setSelectionAndChangeStrategy]

theorem build_feeAmount (st : BuilderState) : (build st).feeAmount = st.feeAmount := rfl

theorem build_mem_ensured (st : BuilderState) (i : Box) (hi : i ∈ st.ensuredInputs) :
    i ∈ (build st).inputs := by
  simp only [build, List.mem_append]
  exact Or.inl hi

/-- C1: every successful cancellation build produces a draft whose inputs
include each of the original transaction's own inputs (they are pinned as
ensured inputs, ahead of anything the selector adds), and whose fee is
the original transaction's fee plus one minimum-fee increment, hence
strictly greater than the original fee. -/
theorem createRBFCancellation_pins_inputs_and_bumps_fee (ctx : WalletContext)
    (fetchRes : Except String (List Box)) (heightRes : Except String Nat)
    (tx : UnconfirmedTransactionSummary) (draft : TransactionDraft)
    (h : createRBFCancellationTransaction ctx fetchRes heightRes tx = Except.ok draft) :
    (∀ i ∈ tx.ownInputs, i ∈ draft.inputs) ∧
    draft.feeAmount = undecimalize tx.fee ERG_DECIMALS + SAFE_MIN_FEE_VALUE ∧
    undecimalize tx.fee ERG_DECIMALS < draft.feeAmount := by
  unfold createRBFCancellationTransaction at h
  cases hg : getContext fetchRes heightRes with
  | error e => rw [hg] at h; cases h
  | ok p =>
    obtain ⟨inputs, currentHeight⟩ := p
    rw [hg] at h
    simp only [Except.ok.injEq] at h
    subst h
    refine ⟨?_, ?_, ?_⟩
    · intro i hi
      apply build_mem_ensured
      rw [setSelectionAndChangeStrategy_ensuredInputs]
      exact hi
    · rw [build_feeAmount, setSelectionAndChangeStrategy_feeAmount]
    · rw [build_feeAmount, setSelectionAndChangeStrategy_feeAmount]
      exact lt_add_of_pos_right _ (by norm_num [SAFE_MIN_FEE_VALUE])

/-- C1 witness: on the concrete context the cancellation build succeeds,
the own input is part of the draft's inputs, and the fee is 0.001 native
units undecimalized plus the minimum-fee increment. -/
theorem createRBFCancellation_pins_inputs_and_bumps_fee_witness :
    (∀ i ∈ txW.ownInputs, i ∈ draftW.inputs) ∧
    draftW.feeAmount = undecimalize txW.fee ERG_DECIMALS + SAFE_MIN_FEE_VALUE ∧
    undecimalize txW.fee ERG_DECIMALS < draftW.feeAmount :=
  createRBFCancellation_pins_inputs_and_bumps_fee ctxW (Except.ok fetchW) (Except.ok 10)
    txW draftW (by
      have h1 : getContext (Except.ok fetchW) (Except.ok 10) = Except.ok (fetchW, 10) := rfl
      unfold createRBFCancellationTransaction
      rw [h1]
      simp only [ctxW, txW, fetchW, draftW, setSelectionAndChangeStrategy]
      simp
      norm_num [build, selectCover, orderInputs, outputsSumNanoErgs,
        undecimalize, SAFE_MIN_FEE_VALUE, ERG_DECIMALS, ERG_TOKEN_ID,
        List.insertionSort, List.orderedInsert])

/-- C7 witness: at a Ledger profile the configuration is cherry-pick with
a one-token limit, at a standard profile it is height ordering with the
100-token limit. -/
theorem selection_strategy_by_wallet_type_witness :
    ((setSelectionAndChangeStrategy { creationHeight := 1 } WalletType.Ledger).strategy =
        SelectionStrategy.cherryPick ∧
      (setSelectionAndChangeStrategy { creationHeight := 1 } WalletType.Ledger).maxTokensPerChangeBox = 1 ∧
      (setSelectionAndChangeStrategy { creationHeight := 1 } WalletType.Ledger).isolateErgOnChange = true) ∧
    ((setSelectionAndChangeStrategy { creationHeight := 1 } WalletType.Standard).strategy =
        SelectionStrategy.orderByCreationHeight ∧
      (setSelectionAndChangeStrategy { creationHeight := 1 } WalletType.Standard).maxTokensPerChangeBox =
        SAFE_MAX_CHANGE_TOKEN_LIMIT) :=
  ⟨(selection_strategy_by_wallet_type { creationHeight := 1 } WalletType.Ledger).1 rfl,
   (selection_strategy_by_wallet_type { creationHeight := 1 } WalletType.Standard).2.1
     (by simp)⟩

theorem foldl_pickBetter_some (l : List BabelBox) (c : BabelBox) :
    ∃ d, l.foldl pickBetter (some c) = some d ∧ (d = c ∨ d ∈ l) := by
  induction l generalizing c with
  | nil => exact ⟨c, rfl, Or.inl rfl⟩
  | cons a l ih =>
    simp only [List.foldl_cons, pickBetter]
    by_cases h : c.rate < a.rate
    · rw [if_pos h]
      obtain ⟨d, hd, hm⟩ := ih a
      exact ⟨d, hd, Or.inr (by rcases hm with h1 | h1 <;> simp [h1])⟩
    · rw [if_neg h]
      obtain ⟨d, hd, hm⟩ := ih c
      exact ⟨d, hd, by rcases hm with h1 | h1 <;> simp [h1]⟩

theorem selectBestBabelBox_eq_none_iff (boxes : List BabelBox) (t : ℚ) :
    selectBestBabelBox boxes t = none ↔ ∀ b ∈ boxes, ¬ hasEnoughReserve b t := by
  unfold selectBestBabelBox
  cases hf : boxes.filter (fun b => hasEnoughReserve b t) with
  | nil =>
    simp only [List.foldl_nil, true_iff]
    have := List.filter_eq_nil_iff.mp hf
    intro b hb hres
    exact absurd (decide_eq_true hres) (this b hb)
  | cons a rest =>
    simp only [List.foldl_cons]
    constructor
    · intro h
      obtain ⟨d, hd, -⟩ := foldl_pickBetter_some rest a
      rw [show pickBetter none a = some a from rfl] at h
      rw [hd] at h
      cases h
    · intro h
      have ha : a ∈ boxes.filter (fun b => hasEnoughReserve b t) := by
        rw [hf]; exact List.mem_cons_self a rest
      have := List.mem_filter.mp ha
      exact absurd (of_decide_eq_true this.2) (h a this.1)

theorem selectBestBabelBox_mem (boxes : List BabelBox) (t : ℚ) (box : BabelBox)
    (h : selectBestBabelBox boxes t = some box) :
    box ∈ boxes ∧ hasEnoughReserve box t := by
  unfold selectBestBabelBox at h
  cases hf : boxes.filter (fun b => hasEnoughReserve b t) with
  | nil => rw [hf] at h; cases h
  | cons a rest =>
    rw [hf] at h
    simp only [List.foldl_cons, show pickBetter none a = some a from rfl] at h
    obtain ⟨d, hd, hm⟩ := foldl_pickBetter_some rest a
    rw [hd] at h
    have hdb : d = box := Option.some.inj h
    rw [hdb] at hm
    have hmem : box ∈ boxes.filter (fun b => hasEnoughReserve b t) := by
      rw [hf]
      rcases hm with h1 | h1
      · rw [h1]; exact List.mem_cons_self a rest
      · exact List.mem_cons_of_mem a h1
    have := List.mem_filter.mp hmem
    exact ⟨this.1, of_decide_eq_true this.2⟩

/-- C2: a non-native fee resolution fails with the insufficient-liquidity
error exactly when no fetched candidate box has enough reserve for the
requested fee-asset amount; when it succeeds, the selected qualifying box
is recorded into the fee settings, and the transaction is extended with
exactly one swap-box input and one swap-box output carrying the requested
token amount against the box's balances. -/
theorem setFee_babel_swap_resolution (builder : BuilderState) (fee : FeeSettings)
    (allBoxes : List BabelBox) (h : fee.tokenId ≠ ERG_TOKEN_ID) :
    ((∃ e, setFee builder fee allBoxes = Except.error e) ↔
       ∀ b ∈ fetchBabelBoxes allBoxes fee.tokenId fee.nanoErgsPerToken,
         ¬ hasEnoughReserve b (babelTokenUnits fee)) ∧
    (∀ b2 f2, setFee builder fee allBoxes = Except.ok (b2, f2) →
       ∃ box, f2.box = some box ∧
         box ∈ fetchBabelBoxes allBoxes fee.tokenId fee.nanoErgsPerToken ∧
         hasEnoughReserve box (babelTokenUnits fee) ∧
         b2.ensuredInputs = builder.ensuredInputs ++
           [{ boxId := box.boxId, value := box.value, creationHeight := 0 }] ∧
         b2.outputs = builder.outputs ++
           [{ value := box.value - babelTokenUnits fee * box.rate
              address := box.script
              assets := [(fee.tokenId, box.tokenBalance + babelTokenUnits fee)] }]) := by
  unfold setFee
  rw [if_pos h]
  cases hsel : selectBestBabelBox
      (fetchBabelBoxes allBoxes fee.tokenId fee.nanoErgsPerToken) (babelTokenUnits fee) with
  | none =>
    simp only [hsel]
    constructor
    · constructor
      · intro _
        exact (selectBestBabelBox_eq_none_iff _ _).mp hsel
      · intro _
        exact ⟨_, rfl⟩
    · intro b2 f2 hok; cases hok
  | some box =>
    simp only [hsel]
    have hq := selectBestBabelBox_mem _ _ _ hsel
    constructor
    · constructor
      · intro ⟨e, he⟩; cases he
      · intro hall
        exact absurd hq.2 (hall box hq.1)
    · intro b2 f2 hok
      simp only [Except.ok.injEq, Prod.mk.injEq] at hok
      obtain ⟨hb2, hf2⟩ := hok
      refine ⟨box, ?_, hq.1, hq.2, ?_, ?_⟩
      · rw [← hf2]
      · rw [← hb2]; simp [BabelSwapPlugin]
      · rw [← hb2]; simp [BabelSwapPlugin]

/-- The builder state setFee produces on the concrete below-minimum
payment scenario: the swap box pinned as an extra input, the updated swap
box appended as an extra output, and the fee reduced by the protocol
minimum box value. -/
def builderBout : BuilderState :=
  { creationHeight := 100
    ensuredInputs := [{ boxId := "bb", value := 100000000000, creationHeight := 0 }]
    outputs := [{ value := 500000, address := "rcpt" },
                { value := 99950000000, address := "babelswap:s", assets := [("tok", 17)] }]
    feeAmount := 49000000 }

/-- The fee settings setFee produces on the concrete scenario: the
selected swap box recorded in the box field. -/
def feeBout : FeeSettings := { tokenId := "tok", value := 10, box := some babelB }

theorem setFee_concrete_eval :
    setFee builderB feeB [babelB] = Except.ok (builderBout, feeBout) := by
  norm_num [setFee, fetchBabelBoxes, selectBestBabelBox, pickBetter, hasEnoughReserve,
    BabelSwapPlugin, outputsSumNanoErgs, undecimalize, babelTokenUnits,
    getNanoErgsPerTokenRate, MIN_BOX_VALUE, SAFE_MIN_FEE_VALUE, ERG_TOKEN_ID, ERG_DECIMALS,
    builderB, feeB, babelB, builderBout, feeBout]
  decide

/-- C2 witness: on the concrete scenario the fee resolution succeeds, the
qualifying box is recorded and exactly one swap input/output pair is
appended. -/
theorem setFee_babel_swap_resolution_witness :
    ∃ box, feeBout.box = some box ∧
      box ∈ fetchBabelBoxes [babelB] feeB.tokenId feeB.nanoErgsPerToken ∧
      hasEnoughReserve box (babelTokenUnits feeB) ∧
      builderBout.ensuredInputs = builderB.ensuredInputs ++
        [{ boxId := box.boxId, value := box.value, creationHeight := 0 }] ∧
      builderBout.outputs = builderB.outputs ++
        [{ value := box.value - babelTokenUnits feeB * box.rate
           address := box.script
           assets := [(feeB.tokenId, box.tokenBalance + babelTokenUnits feeB)] }] :=
  (setFee_babel_swap_resolution builderB feeB [babelB] (by decide)).2
    builderBout feeBout setFee_concrete_eval

/-- C3 counterexample: on a qualifying non-native fee resolution whose
payment output carries 500000 native units — positive, below the protocol
minimum of 1000000 — with ample fee headroom (resolved native fee
50000000), the draft keeps the payment output at 500000 instead of
raising it to the minimum, and the fee becomes 49000000, the resolved fee
minus the full protocol minimum rather than minus the difference 500000;
the payment-plus-fee total is therefore not preserved.  This refutes the
claim at this concrete input. -/
theorem setFee_minbox_claim_counterexample :
    setFee builderB feeB [babelB] = Except.ok (builderBout, feeBout) ∧
    outputsSumNanoErgs builderB = 500000 ∧
    (0 : ℚ) < 500000 ∧ (500000 : ℚ) < MIN_BOX_VALUE ∧
    babelTokenUnits feeB * babelB.rate = 50000000 ∧
    (500000 : ℚ) ≤ 50000000 - SAFE_MIN_FEE_VALUE ∧
    builderBout.outputs.head? = some { value := 500000, address := "rcpt" } ∧
    (500000 : ℚ) ≠ MIN_BOX_VALUE ∧
    builderBout.feeAmount = 50000000 - MIN_BOX_VALUE ∧
    builderBout.feeAmount ≠ 50000000 - (MIN_BOX_VALUE - 500000) ∧
    500000 + builderBout.feeAmount ≠ 500000 + 50000000 := by
  refine ⟨setFee_concrete_eval, ?_, ?_, ?_, ?_, ?_, ?_, ?_, ?_, ?_, ?_⟩ <;>
    norm_num [outputsSumNanoErgs, builderB, builderBout, babelTokenUnits, undecimalize,
      feeB, babelB, MIN_BOX_VALUE, SAFE_MIN_FEE_VALUE]

/-- C3 amended: when the configured fee asset is non-native, a qualifying
swap box is selected, and the payment-output total is positive, at most
the protocol minimum box value and at most the resolved fee minus the
minimum-fee increment, the fee resolution leaves every existing payment
output unchanged (only the swap output is appended) and pays the resolved
native fee reduced by exactly the protocol minimum box value — not by the
difference between the minimum and the output's value. -/
theorem setFee_minbox_fee_reduction (builder : BuilderState) (fee : FeeSettings)
    (allBoxes : List BabelBox) (box : BabelBox)
    (h : fee.tokenId ≠ ERG_TOKEN_ID)
    (hsel : selectBestBabelBox (fetchBabelBoxes allBoxes fee.tokenId fee.nanoErgsPerToken)
      (babelTokenUnits fee) = some box)
    (h1 : 0 < outputsSumNanoErgs builder)
    (h2 : outputsSumNanoErgs builder ≤ MIN_BOX_VALUE)
    (h3 : outputsSumNanoErgs builder ≤ babelTokenUnits fee * box.rate - SAFE_MIN_FEE_VALUE) :
    ∃ b2 f2, setFee builder fee allBoxes = Except.ok (b2, f2) ∧
      b2.feeAmount = babelTokenUnits fee * box.rate - MIN_BOX_VALUE ∧
      b2.outputs = builder.outputs ++
        [{ value := box.value - babelTokenUnits fee * box.rate
           address := box.script
           assets := [(fee.tokenId, box.tokenBalance + babelTokenUnits fee)] }] := by
  unfold setFee
  rw [if_pos h]
  simp only [hsel, getNanoErgsPerTokenRate]
  rw [if_pos ⟨h1, h2, h3⟩]
  exact ⟨_, _, rfl, rfl, by simp [BabelSwapPlugin]⟩

/-- C3 amended witness: on the concrete scenario the fee is 49000000 and
the payment output list is extended only by the swap output. -/
theorem setFee_minbox_fee_reduction_witness :
    ∃ b2 f2, setFee builderB feeB [babelB] = Except.ok (b2, f2) ∧
      b2.feeAmount = babelTokenUnits feeB * babelB.rate - MIN_BOX_VALUE ∧
      b2.outputs = builderB.outputs ++
        [{ value := babelB.value - babelTokenUnits feeB * babelB.rate
           address := babelB.script
           assets := [(feeB.tokenId, babelB.tokenBalance + babelTokenUnits feeB)] }] :=
  setFee_minbox_fee_reduction builderB feeB [babelB] babelB (by decide)
    (by
      norm_num [selectBestBabelBox, fetchBabelBoxes, hasEnoughReserve, pickBetter,
        babelTokenUnits, undecimalize, feeB, babelB])
    (by norm_num [outputsSumNanoErgs, builderB])
    (by norm_num [outputsSumNanoErgs, builderB, MIN_BOX_VALUE])
    (by norm_num [outputsSumNanoErgs, builderB, babelTokenUnits, undecimalize, feeB,
      babelB, SAFE_MIN_FEE_VALUE])

/-- C4 counterexample: on the worked example — same-script input holding
1000 of asset B and 2000000000 native units, output holding 900 of B and
2005000000 native units — the interpreter reports the asset delta −100 B
together with the native delta decimalize(−5000000), a negative value,
because the native entry is computed input-minus-output; the example's
"+5000000 native" (a positive delta) is not what the code produces. -/
theorem babelSwap_native_delta_counterexample :
    isValidBabelContract boxC4.ergoTree = true ∧
    List.find? (fun i => i.ergoTree == boxC4.ergoTree) [inputC4] = some inputC4 ∧
    ((interpretAssets [] [inputC4] boxC4).map fun a => (a.tokenId, a.amount)) =
      [("B", (-100 : ℚ)), (ERG_TOKEN_ID, decimalize (-5000000 : ℚ) ERG_DECIMALS)] ∧
    decimalize (-5000000 : ℚ) ERG_DECIMALS < 0 ∧
    decimalize (-5000000 : ℚ) ERG_DECIMALS ≠ decimalize (5000000 : ℚ) ERG_DECIMALS := by
  refine ⟨by decide, by decide, ?_, ?_, ?_⟩
  · simp [interpretAssets, isBabelBoxSwap, buildBabelSwapAssetsList, boxC4, inputC4,
      lookupMeta, ERG_TOKEN_ID, ERG_DECIMALS, isValidBabelContract]
    norm_num [decimalize]
  · norm_num [decimalize, ERG_DECIMALS]
  · norm_num [decimalize, ERG_DECIMALS]

/-- C4 amended: for every output box whose script matches the
swap-contract template and that has a transaction input sharing that
exact script, the interpreter reports, for each asset carried by the box,
the delta of the output amount minus the matching input's amount, and for
the native currency the delta of the input value minus the output value
(so the worked example yields −100 B and −5000000 native in raw units) —
never the box's raw balances. -/
theorem interpretAssets_babel_swap_delta (metadata : AssetsMetadataMap)
    (inputs : List EIP12UnsignedInput) (box : ErgoBoxCandidate) (input : EIP12UnsignedInput)
    (hvalid : isValidBabelContract box.ergoTree = true)
    (hfind : inputs.find? (fun i => i.ergoTree == box.ergoTree) = some input) :
    interpretAssets metadata inputs box =
      (box.assets.map fun token =>
        ({ tokenId := token.tokenId
           name := (lookupMeta metadata token.tokenId).bind (fun m => m.name)
           amount := decimalize ((token.amount -
               (((input.assets.find? fun a => a.tokenId == token.tokenId).map
                 fun a => a.amount).getD 0) : Int) : ℚ)
             (((lookupMeta metadata token.tokenId).bind (fun m => m.decimals)).getD 0) } :
          OutputAsset)) ++
      [{ tokenId := ERG_TOKEN_ID
         name := some "ERG"
         amount := decimalize ((input.value - box.value : Int) : ℚ) ERG_DECIMALS }] := by
  unfold interpretAssets isBabelBoxSwap
  rw [hvalid, hfind]
  simp only [Option.isSome_some, Bool.true_and, if_true]
  unfold buildBabelSwapAssetsList
  rw [hfind]

/-- C4 amended witness: on the worked example the reported list is the
delta list −100 B and −0.005 native. -/
theorem interpretAssets_babel_swap_delta_witness :
    interpretAssets [] [inputC4] boxC4 =
      (boxC4.assets.map fun token =>
        ({ tokenId := token.tokenId
           name := (lookupMeta [] token.tokenId).bind (fun m => m.name)
           amount := decimalize ((token.amount -
               (((inputC4.assets.find? fun a => a.tokenId == token.tokenId).map
                 fun a => a.amount).getD 0) : Int) : ℚ)
             (((lookupMeta [] token.tokenId).bind (fun m => m.decimals)).getD 0) } :
          OutputAsset)) ++
      [{ tokenId := ERG_TOKEN_ID
         name := some "ERG"
         amount := decimalize ((inputC4.value - boxC4.value : Int) : ℚ) ERG_DECIMALS }] :=
  interpretAssets_babel_swap_delta [] [inputC4] boxC4 inputC4 (by decide) (by decide)

/-- C8: for a box interpreted as a mint with a non-empty register map,
whatever payloads sit in register slots 4, 5 and 6 — absent, malformed,
of the wrong type, a byte string or a raw integer — the interpreter
returns an asset entry rather than failing: the name and description fall
back to the empty string and the decimal scale to an absent value, and
slot 6 is accepted both as a raw integer and as a UTF-8-encoded integer
string. -/
theorem getMintingToken_register_tolerance (inputs : List EIP12UnsignedInput)
    (box : ErgoBoxCandidate) (firstInput : EIP12UnsignedInput) (token : TokenAmount)
    (h1 : inputs.head? = some firstInput)
    (h2 : box.assets.find? (fun b => b.tokenId == firstInput.boxId) = some token)
    (h3 : box.additionalRegisters ≠ []) :
    getMintingToken inputs box =
      some { tokenId := token.tokenId
             name := some ((decodeUtf8 (List.lookup "R4" box.additionalRegisters)).getD "")
             decimals := decodeDecimals (List.lookup "R6" box.additionalRegisters)
             amount := jsTruthyScale
               (decodeDecimals (List.lookup "R6" box.additionalRegisters)) token.amount
             description :=
               some ((decodeUtf8 (List.lookup "R5" box.additionalRegisters)).getD "")
             minting := some true } ∧
    (∀ n : Int, decodeDecimals (some (RegValue.numeric n)) = some n) ∧
    (∀ bs : List Nat, decodeDecimals (some (RegValue.collBytes bs)) =
      parseIntJS (utf8encode bs)) ∧
    decodeUtf8 none = none ∧
    decodeUtf8 (some RegValue.malformed) = none ∧
    decodeUtf8 (some RegValue.nonNumeric) = none ∧
    (∀ n : Int, decodeUtf8 (some (RegValue.numeric n)) = none) ∧
    decodeDecimals none = none ∧
    decodeDecimals (some RegValue.malformed) = none ∧
    decodeDecimals (some RegValue.nonNumeric) = none := by
  refine ⟨?_, fun n => rfl, fun bs => rfl, rfl, rfl, rfl, fun n => rfl, rfl, rfl, rfl⟩
  simp only [getMintingToken, h1, h2]
  simp [List.isEmpty_iff, h3]

/-- C8 witness: with a malformed slot 4, an absent slot 5 and a slot 6
holding the UTF-8 digit string for two, the minting entry has the empty
name and description and a decimal scale of two. -/
theorem getMintingToken_register_tolerance_witness :
    getMintingToken [inputC10] boxC8 =
      some { tokenId := "i1"
             name := some ((decodeUtf8 (List.lookup "R4" boxC8.additionalRegisters)).getD "")
             decimals := decodeDecimals (List.lookup "R6" boxC8.additionalRegisters)
             amount := jsTruthyScale
               (decodeDecimals (List.lookup "R6" boxC8.additionalRegisters)) 2500
             description :=
               some ((decodeUtf8 (List.lookup "R5" boxC8.additionalRegisters)).getD "")
             minting := some true } :=
  (getMintingToken_register_tolerance [inputC10] boxC8 inputC10 ⟨"i1", 2500⟩
    rfl (by decide) (by decide)).1

/-- C10: when a box carries a token whose id equals the first input's box
id — the canonical minting marker — but the register map is empty, the
interpreter returns the token with its raw amount and no minting flag,
the displayed asset list contains that unflagged raw entry, and the
public minting classification of the box is false despite the matching
marker. -/
theorem mintingMarker_without_registers_not_minting (metadata : AssetsMetadataMap)
    (inputs : List EIP12UnsignedInput) (box : ErgoBoxCandidate)
    (firstInput : EIP12UnsignedInput) (token : TokenAmount)
    (h1 : inputs.head? = some firstInput)
    (h2 : box.assets.find? (fun b => b.tokenId == firstInput.boxId) = some token)
    (h3 : box.additionalRegisters = []) :
    getMintingToken inputs box =
      some { tokenId := token.tokenId, amount := (token.amount : ℚ) } ∧
    (∃ a ∈ buildSendingAssetsList metadata inputs box,
       a.tokenId = token.tokenId ∧ a.amount = (token.amount : ℚ) ∧ a.minting = none) ∧
    isMinting (buildSendingAssetsList metadata inputs box) = false := by
  have hmem := List.mem_of_find?_eq_some h2
  have hne : box.assets ≠ [] := List.ne_nil_of_mem hmem
  have hmt : getMintingToken inputs box =
      some { tokenId := token.tokenId, amount := (token.amount : ℚ) } := by
    simp only [getMintingToken, h1, h2]
    simp [h3]
  refine ⟨hmt, ?_⟩
  unfold buildSendingAssetsList
  rw [hmt]
  rw [if_neg (by simp [List.isEmpty_iff, hne])]
  simp only []
  set f : TokenAmount → OutputAsset := fun t =>
    ({ tokenId := t.tokenId
       name := (lookupMeta metadata t.tokenId).bind (fun m => m.name)
       amount := jsTruthyScale ((lookupMeta metadata t.tokenId).bind (fun m => m.decimals))
         t.amount } : OutputAsset) with hf
  set m : OutputAsset := { tokenId := token.tokenId, amount := (token.amount : ℚ) } with hm
  have hany : (box.assets.map f).any (fun t => t.tokenId == m.tokenId) = true := by
    rw [List.any_eq_true]
    refine ⟨f token, List.mem_map_of_mem f hmem, ?_⟩
    simp [hf, hm]
  have hsome : ((box.assets.map f).findIdx? (fun t => t.tokenId == m.tokenId)).isSome = true := by
    rw [List.findIdx?_isSome, hany]
  obtain ⟨i, hi⟩ := Option.isSome_iff_exists.mp hsome
  obtain ⟨hlen, -, -⟩ := List.findIdx?_eq_some_iff_getElem.mp hi
  rw [hi]
  simp only []
  have hlen2 : i < ((box.assets.map f).set i m).length := by
    rw [List.length_set]; exact hlen
  have hmmem : m ∈ (box.assets.map f).set i m := List.mem_set _ i hlen m
  constructor
  · exact ⟨m, List.mem_cons_of_mem _ hmmem, rfl, rfl, rfl⟩
  · unfold isMinting
    rw [show (List.find? (fun a => a.minting.getD false)
        ({ tokenId := ERG_TOKEN_ID, name := some "ERG",
           amount := decimalize (box.value : ℚ) ERG_DECIMALS } ::
          (box.assets.map f).set i m)) = none from ?_]
    · rfl
    · rw [List.find?_eq_none]
      intro x hx
      rcases List.mem_cons.mp hx with hx1 | hx2
      · rw [hx1]; simp
      · rcases List.mem_or_eq_of_mem_set hx2 with hx3 | hx4
        · obtain ⟨t, -, ht2⟩ := List.mem_map.mp hx3
          rw [← ht2]; simp [hf]
        · rw [hx4]; simp [hm]

/-- C10 witness: on a concrete box carrying the marker token with 2500
raw units and no registers, the entry is raw and unflagged and the box is
not classified as minting. -/
theorem mintingMarker_without_registers_not_minting_witness :
    getMintingToken [inputC10] boxC10 =
      some { tokenId := "i1", amount := (2500 : ℚ) } ∧
    (∃ a ∈ buildSendingAssetsList [] [inputC10] boxC10,
       a.tokenId = "i1" ∧ a.amount = (2500 : ℚ) ∧ a.minting = none) ∧
    isMinting (buildSendingAssetsList [] [inputC10] boxC10) = false :=
  mintingMarker_without_registers_not_minting [] [inputC10] boxC10 inputC10 ⟨"i1", 2500⟩
    rfl (by decide) rfl

theorem sortByIndex_sorted (l : List DbAddress) :
    (sortByIndex l).Sorted fun a b => a.index ≤ b.index :=
  List.sorted_insertionSort _ l

theorem mem_sortByIndex (a : DbAddress) (l : List DbAddress) :
    a ∈ sortByIndex l ↔ a ∈ l :=
  (List.perm_insertionSort _ l).mem_iff

theorem find?_sorted_minimal {p : DbAddress → Bool} {l : List DbAddress} {a : DbAddress}
    (hs : l.Sorted fun x y => x.index ≤ y.index) (h : l.find? p = some a) :
    ∀ b ∈ l, p b = true → a.index ≤ b.index := by
  induction l with
  | nil => cases h
  | cons x xs ih =>
    by_cases hpx : p x = true
    · rw [List.find?_cons_of_pos _ hpx] at h
      have hxa : x = a := Option.some.inj h
      intro b hb hpb
      rcases List.mem_cons.mp hb with hb1 | hb2
      · rw [← hxa, hb1]
      · rw [← hxa]
        exact (List.sorted_cons.mp hs).1 b hb2
    · rw [List.find?_cons_of_neg _ hpx] at h
      intro b hb hpb
      rcases List.mem_cons.mp hb with hb1 | hb2
      · rw [hb1] at hpb; exact absurd hpb hpx
      · exact ih (List.sorted_cons.mp hs).2 h b hb2 hpb

/-- C6: the change address is resolved by exact precedence — a missing
wallet yields no address; with address-reuse avoidance enabled, the
wallet's unused address of lowest index; otherwise the wallet's address
at the configured default change index; and when the respective rule
resolves nothing, the wallet's address of lowest index overall, or none
when the wallet owns no address at all. -/
theorem getChangeAddress_precedence (wallets : List DbWallet) (db : List DbAddress)
    (walletId : Nat) :
    (wallets.find? (fun w => w.id == walletId) = none →
       getChangeAddress wallets db walletId = none) ∧
    (∀ w, wallets.find? (fun w => w.id == walletId) = some w →
       ((w.avoidAddressReuse = true →
           (∃ u ∈ db, u.walletId = w.id ∧ u.state = AddressState.Unused) →
           ∃ a, getChangeAddress wallets db walletId = some a ∧
             a.walletId = w.id ∧ a.state = AddressState.Unused ∧
             ∀ b ∈ db, b.walletId = w.id → b.state = AddressState.Unused →
               a.index ≤ b.index) ∧
        (w.avoidAddressReuse = false →
           (∃ u ∈ db, u.walletId = w.id ∧ u.index = w.defaultChangeIndex) →
           ∃ a, getChangeAddress wallets db walletId = some a ∧
             a.walletId = w.id ∧ a.index = w.defaultChangeIndex) ∧
        (getChangeAddressStep db w = none →
           (∃ u ∈ db, u.walletId = walletId) →
           ∃ a, getChangeAddress wallets db walletId = some a ∧
             a.walletId = walletId ∧
             ∀ b ∈ db, b.walletId = walletId → a.index ≤ b.index) ∧
        (getChangeAddressStep db w = none → (∀ u ∈ db, u.walletId ≠ walletId) →
           getChangeAddress wallets db walletId = none))) := by
  constructor
  · intro hnone
    unfold getChangeAddress
    rw [hnone]
  · intro w hw
    refine ⟨?_, ?_, ?_, ?_⟩
    · intro havoid ⟨u, hu, huw, hus⟩
      have hstep : ∃ a, getChangeAddressStep db w = some a := by
        unfold getChangeAddressStep
        rw [havoid]
        simp only [if_true]
        have : ((sortByIndex db).find?
            (fun a => a.walletId == w.id && a.state == AddressState.Unused)).isSome = true := by
          rw [List.find?_isSome]
          exact ⟨u, (mem_sortByIndex u db).mpr hu, by simp [huw, hus]⟩
        exact Option.isSome_iff_exists.mp this
      obtain ⟨a, ha⟩ := hstep
      have hfind : (sortByIndex db).find?
          (fun x => x.walletId == w.id && x.state == AddressState.Unused) = some a := by
        rw [← ha]
        unfold getChangeAddressStep
        rw [havoid]
        simp only [if_true]
      have hpa := List.find?_some hfind
      simp only [Bool.and_eq_true, beq_iff_eq] at hpa
      refine ⟨a, ?_, hpa.1, hpa.2, ?_⟩
      · simp only [getChangeAddress, hw, ha]
      · intro b hb hbw hbs
        exact find?_sorted_minimal (sortByIndex_sorted db) hfind b
          ((mem_sortByIndex b db).mpr hb) (by simp [hbw, hbs])
    · intro havoid ⟨u, hu, huw, hui⟩
      have hstep : ∃ a, getChangeAddressStep db w = some a := by
        unfold getChangeAddressStep
        rw [havoid]
        simp only [Bool.false_eq_true, if_false]
        have : (db.find?
            (fun a => a.walletId == w.id && a.index == w.defaultChangeIndex)).isSome = true := by
          rw [List.find?_isSome]
          exact ⟨u, hu, by simp [huw, hui]⟩
        exact Option.isSome_iff_exists.mp this
      obtain ⟨a, ha⟩ := hstep
      have hpa := List.find?_some (by
        rw [← ha]
        unfold getChangeAddressStep
        rw [havoid]
        simp only [Bool.false_eq_true, if_false] :
        db.find? (fun x => x.walletId == w.id && x.index == w.defaultChangeIndex) = some a)
      simp only [Bool.and_eq_true, beq_iff_eq] at hpa
      refine ⟨a, ?_, hpa.1, hpa.2⟩
      simp only [getChangeAddress, hw, ha]
    · intro hstep ⟨u, hu, huw⟩
      have : ((sortByIndex db).find? (fun a => a.walletId == walletId)).isSome = true := by
        rw [List.find?_isSome]
        exact ⟨u, (mem_sortByIndex u db).mpr hu, by simp [huw]⟩
      obtain ⟨a, ha⟩ := Option.isSome_iff_exists.mp this
      have hpa := List.find?_some ha
      simp only [beq_iff_eq] at hpa
      refine ⟨a, ?_, hpa, ?_⟩
      · simp only [getChangeAddress, hw, hstep, ha]
      · intro b hb hbw
        exact find?_sorted_minimal (sortByIndex_sorted db) ha b
          ((mem_sortByIndex b db).mpr hb) (by simp [hbw])
    · intro hstep hall
      simp only [getChangeAddress, hw, hstep]
      rw [List.find?_eq_none.mpr]
      intro x hx
      simp only [beq_iff_eq]
      exact hall x ((mem_sortByIndex x db).mp hx)

/-- C6 witness: with reuse avoidance enabled, index 0 used and indices 1
and 2 unused, the resolved change address is the unused address of index
1. -/
theorem getChangeAddress_precedence_witness :
    ∃ a, getChangeAddress walletsW addressesW 1 = some a ∧
      a.walletId = 1 ∧ a.state = AddressState.Unused ∧
      ∀ b ∈ addressesW, b.walletId = 1 → b.state = AddressState.Unused →
        a.index ≤ b.index :=
  ((getChangeAddress_precedence walletsW addressesW 1).2
      { id := 1, avoidAddressReuse := true, defaultChangeIndex := 0 } (by decide)).1
    rfl
    ⟨{ script := "s1", index := 1, walletId := 1, state := AddressState.Unused },
      by decide, rfl, rfl⟩

/-- C9: over a store whose scripts are unique (the script column is the
primary key) and a duplicate-free request, a strict lookup that finds
fewer matching wallet-owned addresses than requested scripts throws the
ownership error; a loose lookup over the same inputs returns the possibly
shorter matching list without error; and a strict lookup that returns
does so with exactly one result per requested script. -/
theorem getByWalletIdAndScripts_strict_spec (db : List DbAddress) (walletId : Nat)
    (scripts : List String)
    (hdb : (db.map (fun a => a.script)).Nodup) (hs : scripts.Nodup) :
    ((db.filter (fun a => a.script ∈ scripts ∧ a.walletId = walletId)).length <
        scripts.length →
       ∃ e, getByWalletIdAndScripts db walletId scripts true = Except.error e) ∧
    (getByWalletIdAndScripts db walletId scripts false =
       Except.ok (db.filter (fun a => a.script ∈ scripts ∧ a.walletId = walletId))) ∧
    (∀ r, getByWalletIdAndScripts db walletId scripts true = Except.ok r →
       r = db.filter (fun a => a.script ∈ scripts ∧ a.walletId = walletId) ∧
       r.length = scripts.length ∧
       ∀ s ∈ scripts, (r.filter (fun a => a.script = s)).length = 1) := by
  refine ⟨?_, ?_, ?_⟩
  · intro hlt
    unfold getByWalletIdAndScripts
    rw [if_pos ⟨rfl, Nat.ne_of_lt hlt⟩]
    exact ⟨_, rfl⟩
  · unfold getByWalletIdAndScripts
    rw [if_neg (by simp)]
  · intro r hr
    unfold getByWalletIdAndScripts at hr
    by_cases hlen : (db.filter
        (fun a => a.script ∈ scripts ∧ a.walletId = walletId)).length = scripts.length
    · rw [if_neg (fun hcon => hcon.2 hlen)] at hr
      have hre : r = db.filter (fun a => a.script ∈ scripts ∧ a.walletId = walletId) :=
        (Except.ok.inj hr).symm
      refine ⟨hre, by rw [hre]; exact hlen, ?_⟩
      intro s hsin
      have hnr : (r.map (fun a => a.script)).Nodup := by
        rw [hre]
        exact hdb.sublist ((List.filter_sublist db).map (fun a => a.script))
      have hsub : (r.map (fun a => a.script)) ⊆ scripts := by
        intro x hx
        obtain ⟨a, ha, hax⟩ := List.mem_map.mp hx
        rw [hre] at ha
        have := of_decide_eq_true (List.mem_filter.mp ha).2
        rw [← hax]
        exact this.1
      have hperm : (r.map (fun a => a.script)).Perm scripts :=
        (List.subperm_of_subset hnr hsub).perm_of_length_le
          (by rw [List.length_map, hre, hlen])
      have hcount : List.count s (r.map (fun a => a.script)) = 1 := by
        rw [hperm.count_eq]
        exact List.count_eq_one_of_mem hs hsin
      rw [List.count_eq_countP, List.countP_map] at hcount
      rw [← List.countP_eq_length_filter]
      rw [← hcount]
      exact List.countP_congr (fun a _ => by simp)
    · rw [if_pos ⟨rfl, hlen⟩] at hr
      cases hr

/-- C9 witness: requesting two owned scripts strictly returns exactly the
two matching addresses, one per script; one owned plus one foreign script
in strict mode throws; loose mode returns the single match. -/
theorem getByWalletIdAndScripts_strict_spec_witness :
    (∀ r, getByWalletIdAndScripts addressesC9 1 ["s0", "s1"] true = Except.ok r →
       r = addressesC9.filter (fun a => a.script ∈ ["s0", "s1"] ∧ a.walletId = 1) ∧
       r.length = (["s0", "s1"] : List String).length ∧
       ∀ s ∈ ["s0", "s1"], (r.filter (fun a => a.script = s)).length = 1) ∧
    ((addressesC9.filter (fun a => a.script ∈ ["s0", "t9"] ∧ a.walletId = 1)).length <
        (["s0", "t9"] : List String).length →
      ∃ e, getByWalletIdAndScripts addressesC9 1 ["s0", "t9"] true = Except.error e) ∧
    (getByWalletIdAndScripts addressesC9 1 ["s0", "t9"] false =
       Except.ok (addressesC9.filter (fun a => a.script ∈ ["s0", "t9"] ∧ a.walletId = 1))) :=
  ⟨(getByWalletIdAndScripts_strict_spec addressesC9 1 ["s0", "s1"]
      (by decide) (by decide)).2.2,
   (getByWalletIdAndScripts_strict_spec addressesC9 1 ["s0", "t9"]
      (by decide) (by decide)).1,
   (getByWalletIdAndScripts_strict_spec addressesC9 1 ["s0", "t9"]
      (by decide) (by decide)).2.1⟩

end Nautilus
